import Mathlib

/-!
# Verification of the Git-Pull-Indep sync orchestrator

Shallow embedding of `src/git_pull_indep.py` (class `GitPullIndep`).  The
program is a sequential orchestration of git operations; we model the
outcome of every external operation (git commands, filesystem checks,
process replacement) as a field of an `Env` record, and embed the control
flow of `GitPullIndep.run` and its helper methods as a total function
`run : Env → Outcome` which records the ordered trace of externally
visible actions, the terminal behaviour of the process, the error kind of
a fatal failure (if any), and the final in-memory result state
(`repo_changed`, `stashed`, `updated_submodules`).
-/

namespace GitPullIndep

/-- The contents of the status artifact `.git_pull_indep_status` as far as
they depend on the run: the SUCCESS/FAILURE flag, the
`Repository Changed:` line (present only on success) and the
`Submodule Updates:` list (present only on success; the empty list is
printed as `None`).  Timestamp and commit block carry no run state and are
omitted. Mirrors `_write_status` (src lines 60-104). -/
structure StatusRecord where
  success : Bool
  repoChangedField : Option String
  submoduleUpdatesField : Option (List String)
deriving DecidableEq, Repr

/-- The spec's error taxonomy (§7); each constructor corresponds to one
`raise` site of the source (all of them raise plain Python exceptions,
the taxonomy names the site). -/
inductive ErrKind where
  | cacheRelocationFailure
  | cacheLocationMismatch
  | invalidRepository
  | branchResolutionFailure
  | pullFailure
  | submoduleUpdateFailure
deriving DecidableEq, Repr

/-- Externally visible actions of one run, in program order. -/
inductive Event where
  /-- the `GIT_PULL_INDEP_FROM_CACHE` marker was read and deleted
  (src lines 348-349); `v` is the cache path it carried. -/
  | clearMarker (v : List String)
  /-- `os.execl` re-invoking the copy of the program in the cache
  (src line 342). -/
  | execlCache
  /-- `git stash push -u` attempted (src line 191). -/
  | stash
  /-- `git checkout <branch>` of an existing local branch (src line 157). -/
  | checkoutLocal
  /-- `git fetch` during remote-branch probing (src line 162). -/
  | fetch
  /-- `git checkout -b <branch> origin/<branch>` (src line 173). -/
  | checkoutTrack
  /-- `git checkout -b <branch>` from the current HEAD (src line 177). -/
  | checkoutNew
  /-- `origin.pull()` attempted (src line 236). -/
  | pullOp
  /-- `git submodule update --init --recursive` attempted (src line 274). -/
  | submoduleUpdate
  /-- `git stash pop` attempted (src line 211). -/
  | popStash
  /-- the status artifact written with record `r` (src lines 65-103). -/
  | writeStatus (r : StatusRecord)
  /-- `os.execl` replacing the process with the initiator script
  (src lines 401 and 419). -/
  | execlInitiator (p : String)
  /-- `os.chdir(self.original_dir)` in the `finally` block (src line 429). -/
  | chdirOriginal
deriving DecidableEq, Repr

/-- One submodule of the target repository: its name, the commit hash read
from its checkout before `submodule update` and the one read after
(`none` = the read raised, which the source catches, src lines 264-271 and
278-294). -/
structure Submod where
  name : String
  shaBefore : Option String
  shaAfter : Option String
deriving DecidableEq, Repr

/-- The environment of one run: the configuration of the `GitPullIndep`
instance plus the outcome of every external (git / filesystem / process)
operation the run may perform.  Paths are modelled as lists of
components. -/
structure Env where
  /-- `self.cache_path` (`none` = not configured). -/
  cachePath : Option (List String)
  /-- value of the `GIT_PULL_INDEP_FROM_CACHE` environment variable when
  `run` starts (`none` = unset). -/
  markerValue : Option (List String)
  /-- `Path(__file__).parent.resolve()`: the directory the running program
  sits in. -/
  scriptDir : List String
  /-- whether `_copy_to_cache` succeeds. -/
  copySucceeds : Bool
  /-- whether `self.repo_path.exists()`. -/
  repoPathExists : Bool
  /-- whether `(self.repo_path / ".git").exists()`. -/
  gitDirExists : Bool
  /-- `repo.is_dirty(untracked_files=True)`. -/
  isDirty : Bool
  /-- whether `git stash push` succeeds. -/
  stashSucceeds : Bool
  /-- `self.checkout_branch` (`none` = not requested). -/
  checkoutBranch : Option String
  /-- names of the local branches (`repo.heads`). -/
  localBranches : List String
  /-- whether `repo.git.fetch()` and the remote-refs scan succeed. -/
  fetchOk : Bool
  /-- names of the remote-tracking refs (`repo.remote().refs`),
  e.g. `"origin/main"`. -/
  remoteRefs : List String
  /-- whether `git checkout <branch>` succeeds. -/
  checkoutLocalOk : Bool
  /-- whether `git checkout -b <branch> origin/<branch>` succeeds. -/
  checkoutTrackOk : Bool
  /-- whether `git checkout -b <branch>` succeeds. -/
  checkoutNewOk : Bool
  /-- whether a remote named `origin` is configured. -/
  originExists : Bool
  /-- `origin.pull()`: `none` = the pull raises; `some flags` = it returns
  one fetch-info per element, carrying that numeric `flags` value. -/
  pullResult : Option (List Nat)
  /-- `repo.submodules` with the hashes the two read loops observe. -/
  submodules : List Submod
  /-- whether `git submodule update --init --recursive` succeeds. -/
  submoduleCmdOk : Bool
  /-- whether `git stash pop` succeeds. -/
  popSucceeds : Bool
  /-- `self.initiator` (`none` = not configured). -/
  initiator : Option String
deriving Repr

/-- The mutable result state of a `GitPullIndep` instance
(src lines 38-40). -/
structure St where
  repo_changed : Bool
  stashed : Bool
  updated_submodules : List String
deriving DecidableEq, Repr

/-- The state set up by `__init__`: `repo_changed = False`,
`stashed = False`, `updated_submodules = []` (src lines 38-40). -/
def St.init : St := ⟨false, false, []⟩

/-- Result of one fallible step: either the control flow continues or the
step raised, which `run`'s `except` clause turns into the failure path. -/
inductive StepResult where
  | ok (tr : List Event) (st : St)
  | err (tr : List Event) (st : St) (k : ErrKind)
deriving DecidableEq, Repr

/-- The dirty-tree guard of `run` (src lines 374-376) together with
`_stash_changes` (src lines 185-204): when the tree is dirty a stash is
attempted; on success `stashed` becomes true, a failed stash is only
logged and `stashed` stays false. -/
def stashStep (e : Env) (tr : List Event) (st : St) : List Event × St :=
  if e.isDirty then
    (tr ++ [Event.stash], if e.stashSucceeds then { st with stashed := true } else st)
  else (tr, st)

/-- `_checkout_branch` (src lines 139-183): no-op without a requested
branch; otherwise switch to an existing local branch, else fetch and probe
`origin/<branch>` (a failed fetch is caught and logged as a warning,
leaving the probe negative, src lines 161-168), creating a tracking branch
when the probe is positive and a fresh branch from HEAD otherwise.  A
failed checkout command re-raises (src lines 181-183). -/
def checkoutStep (e : Env) (tr : List Event) (st : St) : StepResult :=
  match e.checkoutBranch with
  | none => .ok tr st
  | some b =>
    if b ∈ e.localBranches then
      if e.checkoutLocalOk then .ok (tr ++ [Event.checkoutLocal]) st
      else .err (tr ++ [Event.checkoutLocal]) st .branchResolutionFailure
    else
      let tr2 := tr ++ [Event.fetch]
      if e.fetchOk && e.remoteRefs.contains ("origin/" ++ b) then
        if e.checkoutTrackOk then .ok (tr2 ++ [Event.checkoutTrack]) st
        else .err (tr2 ++ [Event.checkoutTrack]) st .branchResolutionFailure
      else
        if e.checkoutNewOk then .ok (tr2 ++ [Event.checkoutNew]) st
        else .err (tr2 ++ [Event.checkoutNew]) st .branchResolutionFailure

/-- `_git_pull` (src lines 225-252): skip (warning only) when no `origin`
remote exists; otherwise pull and set `repo_changed` for every fetch-info
whose `flags` differs from 4 (`HEAD_UPTODATE`); a raising pull
re-raises. -/
def pullStep (e : Env) (tr : List Event) (st : St) : StepResult :=
  if e.originExists then
    match e.pullResult with
    | none => .err (tr ++ [Event.pullOp]) st .pullFailure
    | some flags =>
      .ok (tr ++ [Event.pullOp])
        { st with repo_changed := st.repo_changed || flags.any (fun f => f != 4) }
  else .ok tr st

/-- The post-update comparison loop of `_update_submodules`
(src lines 277-294): a submodule whose post-update hash reads as `cur` is
appended when the recorded pre-update hash differs from it; a submodule
whose post-update hash cannot be read is appended unless already
present. -/
def submoduleCompare (subs : List Submod) (acc : List String) : List String :=
  match subs with
  | [] => acc
  | s :: rest =>
    match s.shaAfter with
    | some cur =>
      if s.shaBefore ≠ some cur then submoduleCompare rest (acc ++ [s.name])
      else submoduleCompare rest acc
    | none =>
      if s.name ∈ acc then submoduleCompare rest acc
      else submoduleCompare rest (acc ++ [s.name])

/-- `_update_submodules` (src lines 254-305): nothing happens without
submodules; otherwise the pre-update hashes are recorded (read failures
become `none`, src lines 268-271), `git submodule update --init
--recursive` runs (a failure re-raises), and the comparison loop extends
`updated_submodules`. -/
def submoduleStep (e : Env) (tr : List Event) (st : St) : StepResult :=
  if e.submodules.isEmpty then .ok tr st
  else if e.submoduleCmdOk then
    .ok (tr ++ [Event.submoduleUpdate])
      { st with updated_submodules := submoduleCompare e.submodules st.updated_submodules }
  else .err (tr ++ [Event.submoduleUpdate]) st .submoduleUpdateFailure

/-- The stash-restore guard of `run` (src lines 384-386) together with
`_pop_stash` (src lines 206-222): `git stash pop` is attempted exactly
when `repo_changed` is false and `stashed` is true; `stashed` is reset to
false only when the pop succeeds, and a failed pop never raises. -/
def popStep (e : Env) (tr : List Event) (st : St) : List Event × St :=
  if !st.repo_changed && st.stashed then
    (tr ++ [Event.popStash], if e.popSucceeds then { st with stashed := false } else st)
  else (tr, st)

/-- The record `_write_status(True, ..., repo)` emits (src lines 70-85):
`stashed` forces `Yes (with stashes)`, else `repo_changed` selects
`Yes`/`No`; the submodule list is always present on success. -/
def successRecord (st : St) : StatusRecord :=
  { success := true
  , repoChangedField :=
      some (if st.stashed then "Yes (with stashes)"
            else if st.repo_changed then "Yes" else "No")
  , submoduleUpdatesField := some st.updated_submodules }

/-- The record `_write_status(False, ...)` emits: neither the
`Repository Changed` nor `Submodule Updates` line is written
(src lines 69-85). -/
def failureRecord : StatusRecord :=
  { success := false, repoChangedField := none, submoduleUpdatesField := none }

/-- How the modelled process ends. -/
inductive TermKind where
  /-- the process image was replaced by the cached copy of the program. -/
  | execlCache
  /-- the process image was replaced by the initiator. -/
  | execlInitiator
  /-- `run` returned normally. -/
  | normal
  /-- the exception was re-raised to the caller of `run`. -/
  | raised
deriving DecidableEq, Repr

/-- The observable outcome of one call of `GitPullIndep.run`. -/
structure Outcome where
  trace : List Event
  term : TermKind
  err : Option ErrKind
  st : St
deriving DecidableEq, Repr

/-- The `except` clause of `run` (src lines 404-423) followed by the
`finally` clause (src lines 425-430): a failure status is written, then
either the initiator replaces the process (so `finally` never runs) or
the working directory is restored and the exception propagates. -/
def failOutcome (e : Env) (tr : List Event) (st : St) (k : ErrKind) : Outcome :=
  let tr2 := tr ++ [Event.writeStatus failureRecord]
  match e.initiator with
  | some p =>
    { trace := tr2 ++ [Event.execlInitiator p], term := .execlInitiator
    , err := some k, st := st }
  | none =>
    { trace := tr2 ++ [Event.chdirOriginal], term := .raised
    , err := some k, st := st }

/-- The tail of the success path of `run` (src lines 388-401 and 425-430):
the success status is written, then either the initiator replaces the
process or the working directory is restored and `run` returns. -/
def successOutcome (e : Env) (tr : List Event) (st : St) : Outcome :=
  let tr2 := tr ++ [Event.writeStatus (successRecord st)]
  match e.initiator with
  | some p =>
    { trace := tr2 ++ [Event.execlInitiator p], term := .execlInitiator
    , err := none, st := st }
  | none =>
    { trace := tr2 ++ [Event.chdirOriginal], term := .normal
    , err := none, st := st }

/-- The verification of src lines 352-360: the program's own directory
must equal `<marker>/<name of the program directory>`
(`expected_cache_location = Path(cached_from) / current_script.name`). -/
def cacheLocationOk (marker scriptDir : List String) : Bool :=
  scriptDir == marker ++ [(scriptDir.getLast?).getD ""]

/-- The body of `run` from repository validation onward
(src lines 362-430): validation, optional stash, branch checkout, pull,
submodule update, conditional stash restore, then the success tail; any
raising step diverts into `failOutcome`. -/
def mainFlow (e : Env) (tr0 : List Event) : Outcome :=
  if !e.repoPathExists then failOutcome e tr0 St.init .invalidRepository
  else if !e.gitDirExists then failOutcome e tr0 St.init .invalidRepository
  else
    let p1 := stashStep e tr0 St.init
    match checkoutStep e p1.1 p1.2 with
    | .err tr st k => failOutcome e tr st k
    | .ok tr st =>
      match pullStep e tr st with
      | .err tr st k => failOutcome e tr st k
      | .ok tr st =>
        match submoduleStep e tr st with
        | .err tr st k => failOutcome e tr st k
        | .ok tr st =>
          let p2 := popStep e tr st
          successOutcome e p2.1 p2.2

/-- `GitPullIndep.run` (src lines 307-430).  First the cache block
(src lines 316-360): with a configured cache path and no marker set, the
program copies itself to the cache and replaces its process image with the
copy (a failed copy raises into the failure path); with the marker set,
the marker is deleted at once and the program's location is verified, a
mismatch raising `ValueError` (`CacheLocationMismatch`).  Then the main
flow runs. -/
def run (e : Env) : Outcome :=
  if e.cachePath.isSome && e.markerValue.isNone then
    if e.copySucceeds then
      { trace := [Event.execlCache], term := .execlCache, err := none, st := St.init }
    else failOutcome e [] St.init .cacheRelocationFailure
  else
    match e.markerValue with
    | some v =>
      if cacheLocationOk v e.scriptDir then mainFlow e [Event.clearMarker v]
      else failOutcome e [Event.clearMarker v] St.init .cacheLocationMismatch
    | none => mainFlow e []

/-- Events that operate on the target repository (git commands against
it). -/
def touchesRepo : Event → Bool
  | .stash => true
  | .checkoutLocal => true
  | .fetch => true
  | .checkoutTrack => true
  | .checkoutNew => true
  | .pullOp => true
  | .submoduleUpdate => true
  | .popStash => true
  | _ => false

/-- Whether an event is a status write. -/
def isWriteEvent : Event → Bool
  | .writeStatus _ => true
  | _ => false

/-- Events belonging to the branch-resolution sequence of
`_checkout_branch`. -/
def isCheckoutEvent : Event → Bool
  | .checkoutLocal => true
  | .fetch => true
  | .checkoutTrack => true
  | .checkoutNew => true
  | _ => false

/-! ### Derived descriptions of the pipeline

The following definitions are not part of the embedding; they are closed
forms for the trace segments and the state the pipeline produces, proved
equal to the embedding in the characterization lemmas below. -/

/-- Trace contributed by the cache block on the non-relocating paths. -/
def markerPrefix (e : Env) : List Event :=
  match e.markerValue with
  | some v => [Event.clearMarker v]
  | none => []

/-- Trace contributed by the dirty-tree guard. -/
def stashSeg (e : Env) : List Event :=
  if e.isDirty then [Event.stash] else []

/-- Trace contributed by branch resolution, in its priority order: an
existing local branch is switched to directly; otherwise a fetch runs and
either a tracking branch (remote probe positive) or a fresh branch
(probe negative, in particular after a failed fetch) is created. -/
def checkoutSeg (e : Env) : List Event :=
  match e.checkoutBranch with
  | none => []
  | some b =>
    if b ∈ e.localBranches then [Event.checkoutLocal]
    else
      Event.fetch ::
        (if e.fetchOk && e.remoteRefs.contains ("origin/" ++ b) then
          [Event.checkoutTrack]
        else [Event.checkoutNew])

/-- Trace contributed by the pull step. -/
def pullSeg (e : Env) : List Event :=
  if e.originExists then [Event.pullOp] else []

/-- Trace contributed by the submodule step. -/
def submoduleSeg (e : Env) : List Event :=
  if e.submodules.isEmpty then [] else [Event.submoduleUpdate]

/-- Trace of a completed pipeline up to (excluding) the stash-restore
decision. -/
def preTrace (e : Env) : List Event :=
  markerPrefix e ++ (stashSeg e ++ (checkoutSeg e ++ (pullSeg e ++ submoduleSeg e)))

/-- Whether the dirty-tree guard leaves `stashed` set. -/
def stashedFlag (e : Env) : Bool :=
  e.isDirty && e.stashSucceeds

/-- Whether the pull step leaves `repo_changed` set. -/
def pullChangedFlag (e : Env) : Bool :=
  e.originExists && (e.pullResult.getD []).any (fun f => f != 4)

/-- The `updated_submodules` list the submodule step produces from a
previous value `acc`. -/
def submoduleUpdatedFrom (e : Env) (acc : List String) : List String :=
  if e.submodules.isEmpty then acc else submoduleCompare e.submodules acc

/-- The result state of a completed pipeline at the stash-restore
decision. -/
def pipelineSt (e : Env) : St :=
  { repo_changed := pullChangedFlag e
  , stashed := stashedFlag e
  , updated_submodules := submoduleUpdatedFrom e [] }

/-! ### Concrete environments for instance checks -/

/-- A default environment: no cache, no marker, valid repository, clean
tree, no branch request, an `origin` remote whose pull returns one
up-to-date fetch-info, no submodules, no initiator. -/
def baseEnv : Env :=
  { cachePath := none, markerValue := none, scriptDir := ["opt", "prog"],
    copySucceeds := true, repoPathExists := true, gitDirExists := true,
    isDirty := false, stashSucceeds := true, checkoutBranch := none,
    localBranches := [], fetchOk := true, remoteRefs := [],
    checkoutLocalOk := true, checkoutTrackOk := true, checkoutNewOk := true,
    originExists := true, pullResult := some [4], submodules := [],
    submoduleCmdOk := true, popSucceeds := true, initiator := none }

/-- No `origin` remote, dirty tree, successful stash, FAILING stash pop. -/
def envC1 : Env :=
  { baseEnv with isDirty := true, popSucceeds := false,
                 originExists := false, pullResult := none }

/-- No `origin` remote, dirty tree, successful stash and pop. -/
def envC1w : Env :=
  { baseEnv with isDirty := true, originExists := false, pullResult := none }

/-- An initiator is configured. -/
def envC2 : Env := { baseEnv with initiator := some "caller.py" }

/-- A pull returning one up-to-date and one changed fetch-info. -/
def envC3 : Env := { baseEnv with pullResult := some [4, 64] }

/-- A requested branch that exists neither locally nor remotely, with a
failing fetch. -/
def envC4 : Env :=
  { baseEnv with checkoutBranch := some "dev", fetchOk := false,
                 originExists := false, pullResult := none }

/-- A requested branch that exists locally but whose checkout fails. -/
def envC4a : Env :=
  { baseEnv with checkoutBranch := some "main", localBranches := ["main"],
                 checkoutLocalOk := false }

/-- Two submodules of which only the second changed. -/
def envC5 : Env :=
  { baseEnv with submodules :=
      [⟨"sub1", some "aaa", some "aaa"⟩, ⟨"sub2", some "bbb", some "ccc"⟩] }

/-- A marker carrying `["cdir"]` while the program runs elsewhere. -/
def envC6 : Env :=
  { baseEnv with markerValue := some ["cdir"], scriptDir := ["other", "prog"] }

/-- No `origin` remote and one submodule whose commit changed. -/
def envC7 : Env :=
  { baseEnv with originExists := false, pullResult := none,
                 submodules := [⟨"m1", some "aaa", some "bbb"⟩] }

/-- The target path does not exist. -/
def envC8 : Env := { baseEnv with repoPathExists := false }

/-- An up-to-date pull with one submodule whose commit changed. -/
def envC9 : Env :=
  { baseEnv with submodules := [⟨"m1", some "aaa", some "bbb"⟩] }

/-- Dirty tree, successful stash, up-to-date pull, failing pop. -/
def envC10 : Env :=
  { baseEnv with isDirty := true, popSucceeds := false }

/-! ### Characterization lemmas -/

/-- The state carried by a step result. -/
def StepResult.state : StepResult → St
  | .ok _ st => st
  | .err _ st _ => st

theorem failOutcome_err (e : Env) (tr : List Event) (st : St) (k : ErrKind) :
    (failOutcome e tr st k).err = some k := by
  cases h : e.initiator <;> simp [failOutcome, h]

theorem failOutcome_trace (e : Env) (tr : List Event) (st : St) (k : ErrKind) :
    ∃ tail, (failOutcome e tr st k).trace = tr ++ tail
      ∧ tail.all (fun ev => !touchesRepo ev) = true
      ∧ Event.writeStatus failureRecord ∈ tail := by
  cases h : e.initiator <;>
    simp [failOutcome, h, touchesRepo]

theorem stashStep_eq (e : Env) (tr : List Event) (st : St) :
    stashStep e tr st =
      (tr ++ stashSeg e, { st with stashed := st.stashed || stashedFlag e }) := by
  cases st
  unfold stashStep stashSeg stashedFlag
  cases hd : e.isDirty <;> cases hs : e.stashSucceeds <;> simp

theorem checkoutStep_char (e : Env) (tr : List Event) (st : St) :
    (∃ seg, checkoutStep e tr st = .err (tr ++ seg) st .branchResolutionFailure)
    ∨ checkoutStep e tr st = .ok (tr ++ checkoutSeg e) st := by
  unfold checkoutStep checkoutSeg
  cases hb : e.checkoutBranch with
  | none => simp
  | some b =>
    by_cases hl : b ∈ e.localBranches <;>
      cases ho : e.checkoutLocalOk <;>
      cases hf : e.fetchOk <;>
      cases hc : e.remoteRefs.contains ("origin/" ++ b) <;>
      cases ht : e.checkoutTrackOk <;>
      cases hn : e.checkoutNewOk <;>
      simp_all

theorem pullStep_char (e : Env) (tr : List Event) (st : St) :
    (∃ seg, pullStep e tr st = .err (tr ++ seg) st .pullFailure)
    ∨ pullStep e tr st =
        .ok (tr ++ pullSeg e) { st with repo_changed := st.repo_changed || pullChangedFlag e } := by
  cases st
  unfold pullStep pullSeg pullChangedFlag
  cases ho : e.originExists
  · simp
  · cases hp : e.pullResult with
    | none => simp
    | some flags => simp

theorem submoduleStep_char (e : Env) (tr : List Event) (st : St) :
    (∃ seg, submoduleStep e tr st = .err (tr ++ seg) st .submoduleUpdateFailure)
    ∨ submoduleStep e tr st =
        .ok (tr ++ submoduleSeg e)
          { st with updated_submodules := submoduleUpdatedFrom e st.updated_submodules } := by
  cases st
  unfold submoduleStep submoduleSeg submoduleUpdatedFrom
  cases he : e.submodules.isEmpty
  · cases hc : e.submoduleCmdOk <;> simp [he, hc]
  · simp [he]

theorem successOutcome_trace (e : Env) (tr : List Event) (st : St) :
    ∃ tail, (successOutcome e tr st).trace = tr ++ tail
      ∧ tail.all (fun ev => !touchesRepo ev) = true
      ∧ Event.writeStatus (successRecord st) ∈ tail := by
  cases h : e.initiator <;> simp [successOutcome, h, touchesRepo]

theorem popStep_eq (e : Env) (tr : List Event) (st : St) :
    popStep e tr st =
      (tr ++ (if !st.repo_changed && st.stashed then [Event.popStash] else []),
       if (!st.repo_changed && st.stashed) && e.popSucceeds then { st with stashed := false }
       else st) := by
  cases st with
  | mk rc sh su =>
    unfold popStep
    cases rc <;> cases sh <;> cases hp : e.popSucceeds <;> simp

/-- Either `mainFlow` diverts into the failure path, or it completes the
whole pipeline: the trace it hands to the success tail is the input trace
followed by the segments of each step and the optional stash pop, and the
state is `pipelineSt` as adjusted by the stash-restore decision. -/
theorem mainFlow_char (e : Env) (tr0 : List Event) :
    (∃ seg st k, mainFlow e tr0 = failOutcome e (tr0 ++ seg) st k)
    ∨ mainFlow e tr0 =
        successOutcome e
          (popStep e (tr0 ++ (stashSeg e ++ (checkoutSeg e ++ (pullSeg e ++ submoduleSeg e))))
            (pipelineSt e)).1
          (popStep e (tr0 ++ (stashSeg e ++ (checkoutSeg e ++ (pullSeg e ++ submoduleSeg e))))
            (pipelineSt e)).2 := by
  unfold mainFlow
  cases hrp : e.repoPathExists
  · refine Or.inl ⟨[], St.init, ErrKind.invalidRepository, ?_⟩
    simp [hrp]
  cases hgd : e.gitDirExists
  · refine Or.inl ⟨[], St.init, ErrKind.invalidRepository, ?_⟩
    simp [hrp, hgd]
  simp only [hrp, hgd, Bool.not_true, Bool.false_eq_true, if_false, stashStep_eq]
  rcases checkoutStep_char e (tr0 ++ stashSeg e)
      { St.init with stashed := St.init.stashed || stashedFlag e } with ⟨seg, hck⟩ | hck <;>
    simp only [hck]
  · exact Or.inl ⟨stashSeg e ++ seg,
      { St.init with stashed := St.init.stashed || stashedFlag e },
      ErrKind.branchResolutionFailure, by simp [List.append_assoc]⟩
  rcases pullStep_char e (tr0 ++ stashSeg e ++ checkoutSeg e)
      { St.init with stashed := St.init.stashed || stashedFlag e } with ⟨seg, hpl⟩ | hpl <;>
    simp only [hpl]
  · exact Or.inl ⟨stashSeg e ++ (checkoutSeg e ++ seg),
      { St.init with stashed := St.init.stashed || stashedFlag e },
      ErrKind.pullFailure, by simp [List.append_assoc]⟩
  rcases submoduleStep_char e (tr0 ++ stashSeg e ++ checkoutSeg e ++ pullSeg e)
      { repo_changed := St.init.repo_changed || pullChangedFlag e
      , stashed := St.init.stashed || stashedFlag e
      , updated_submodules := St.init.updated_submodules } with ⟨seg, hsm⟩ | hsm <;>
    simp only [hsm]
  · exact Or.inl ⟨stashSeg e ++ (checkoutSeg e ++ (pullSeg e ++ seg)),
      { repo_changed := St.init.repo_changed || pullChangedFlag e
      , stashed := St.init.stashed || stashedFlag e
      , updated_submodules := St.init.updated_submodules },
      ErrKind.submoduleUpdateFailure, by simp [List.append_assoc]⟩
  right
  simp [pipelineSt, St.init, List.append_assoc]

/-- `run` either replaces the process with the cached copy, or diverts into
the failure path, or completes the pipeline: the success tail receives the
trace `preTrace` followed by the optional stash pop, and the state
`pipelineSt` as adjusted by the stash-restore decision. -/
theorem run_char (e : Env) :
    ((run e).term = TermKind.execlCache ∧ (run e).trace = [Event.execlCache])
    ∨ (∃ tr st k, run e = failOutcome e tr st k)
    ∨ run e =
        successOutcome e (popStep e (preTrace e) (pipelineSt e)).1
          (popStep e (preTrace e) (pipelineSt e)).2 := by
  unfold run
  cases hrel : e.cachePath.isSome && e.markerValue.isNone
  · simp only [Bool.false_eq_true, if_false]
    cases hm : e.markerValue with
    | none =>
      rcases mainFlow_char e [] with ⟨seg, st, k, h⟩ | h
      · exact Or.inr (Or.inl ⟨_, _, _, h⟩)
      · refine Or.inr (Or.inr ?_)
        rw [h]
        simp [preTrace, markerPrefix, hm]
    | some v =>
      cases hok : cacheLocationOk v e.scriptDir
      · simp only [hok, Bool.false_eq_true, if_false]
        exact Or.inr (Or.inl ⟨_, _, _, rfl⟩)
      · simp only [hok, if_true]
        rcases mainFlow_char e [Event.clearMarker v] with ⟨seg, st, k, h⟩ | h
        · exact Or.inr (Or.inl ⟨_, _, _, h⟩)
        · refine Or.inr (Or.inr ?_)
          rw [h]
          simp [preTrace, markerPrefix, hm]
  · cases hcp : e.copySucceeds
    · refine Or.inr (Or.inl ⟨[], St.init, ErrKind.cacheRelocationFailure, ?_⟩)
      simp [hrel, hcp]
    · refine Or.inl ⟨?_, ?_⟩ <;> simp [hrel, hcp]

theorem successOutcome_err (e : Env) (tr : List Event) (st : St) :
    (successOutcome e tr st).err = none := by
  cases h : e.initiator <;> simp [successOutcome, h]

theorem successOutcome_st (e : Env) (tr : List Event) (st : St) :
    (successOutcome e tr st).st = st := by
  cases h : e.initiator <;> simp [successOutcome, h]

theorem successOutcome_term (e : Env) (tr : List Event) (st : St) :
    (successOutcome e tr st).term ≠ TermKind.execlCache := by
  cases h : e.initiator <;> simp [successOutcome, h]

theorem failOutcome_st (e : Env) (tr : List Event) (st : St) (k : ErrKind) :
    (failOutcome e tr st k).st = st := by
  cases h : e.initiator <;> simp [failOutcome, h]

/-- On the non-relocating, marker-verified paths, `run` is the main flow
applied to the cache block's trace. -/
theorem run_reaches_main (e : Env)
    (hrel : (e.cachePath.isSome && e.markerValue.isNone) = false)
    (hmk : ∀ v, e.markerValue = some v → cacheLocationOk v e.scriptDir = true) :
    run e = mainFlow e (markerPrefix e) := by
  unfold run markerPrefix
  cases hm : e.markerValue with
  | none =>
    have hcp : e.cachePath.isSome = false := by simpa [hm] using hrel
    simp [hm, hcp]
  | some v => simp [hrel, hm, hmk v hm]

/-- The configured branch resolution succeeds: the checkout command the
priority order selects does not fail. -/
def checkoutOkFor (e : Env) : Prop :=
  match e.checkoutBranch with
  | none => True
  | some b =>
    if b ∈ e.localBranches then e.checkoutLocalOk = true
    else if e.fetchOk && e.remoteRefs.contains ("origin/" ++ b) then e.checkoutTrackOk = true
    else e.checkoutNewOk = true

theorem checkoutStep_ok (e : Env) (h : checkoutOkFor e) (tr : List Event) (st : St) :
    checkoutStep e tr st = .ok (tr ++ checkoutSeg e) st := by
  unfold checkoutOkFor at h
  unfold checkoutStep checkoutSeg
  cases hb : e.checkoutBranch with
  | none => simp
  | some b =>
    rw [hb] at h
    by_cases hl : b ∈ e.localBranches <;>
      cases hf : e.fetchOk <;>
      cases hc : e.remoteRefs.contains ("origin/" ++ b) <;>
      simp_all

theorem pullStep_ok (e : Env) (h : e.originExists = true → e.pullResult.isSome)
    (tr : List Event) (st : St) :
    pullStep e tr st =
      .ok (tr ++ pullSeg e) { st with repo_changed := st.repo_changed || pullChangedFlag e } := by
  cases st
  unfold pullStep pullSeg pullChangedFlag
  cases ho : e.originExists
  · simp
  · cases hp : e.pullResult with
    | none => simp [hp, ho] at h
    | some flags => simp [hp]

theorem submoduleStep_ok (e : Env) (h : e.submoduleCmdOk = true)
    (tr : List Event) (st : St) :
    submoduleStep e tr st =
      .ok (tr ++ submoduleSeg e)
        { st with updated_submodules := submoduleUpdatedFrom e st.updated_submodules } := by
  cases st
  unfold submoduleStep submoduleSeg submoduleUpdatedFrom
  cases he : e.submodules.isEmpty <;> simp [he, h]

/-- When repository validation, branch resolution, pull and submodule
update all succeed, the main flow completes the pipeline. -/
theorem mainFlow_success (e : Env) (tr0 : List Event)
    (hrp : e.repoPathExists = true) (hgd : e.gitDirExists = true)
    (hck : checkoutOkFor e)
    (hpl : e.originExists = true → e.pullResult.isSome)
    (hsm : e.submoduleCmdOk = true) :
    mainFlow e tr0 =
      successOutcome e
        (popStep e (tr0 ++ (stashSeg e ++ (checkoutSeg e ++ (pullSeg e ++ submoduleSeg e))))
          (pipelineSt e)).1
        (popStep e (tr0 ++ (stashSeg e ++ (checkoutSeg e ++ (pullSeg e ++ submoduleSeg e))))
          (pipelineSt e)).2 := by
  unfold mainFlow
  simp only [hrp, hgd, Bool.not_true, Bool.false_eq_true, if_false, stashStep_eq,
    checkoutStep_ok e hck, pullStep_ok e hpl, submoduleStep_ok e hsm]
  simp [pipelineSt, St.init, List.append_assoc]

/-- Under the hypotheses of `run_reaches_main` and `mainFlow_success`,
`run` completes the pipeline. -/
theorem run_success_of (e : Env)
    (hrel : (e.cachePath.isSome && e.markerValue.isNone) = false)
    (hmk : ∀ v, e.markerValue = some v → cacheLocationOk v e.scriptDir = true)
    (hrp : e.repoPathExists = true) (hgd : e.gitDirExists = true)
    (hck : checkoutOkFor e)
    (hpl : e.originExists = true → e.pullResult.isSome)
    (hsm : e.submoduleCmdOk = true) :
    run e =
      successOutcome e (popStep e (preTrace e) (pipelineSt e)).1
        (popStep e (preTrace e) (pipelineSt e)).2 := by
  rw [run_reaches_main e hrel hmk, mainFlow_success e _ hrp hgd hck hpl hsm]
  rfl

/-- A run that did not relocate and reports no error completed the
pipeline. -/
theorem run_success_eq (e : Env)
    (hterm : (run e).term ≠ TermKind.execlCache)
    (herr : (run e).err = none) :
    run e =
      successOutcome e (popStep e (preTrace e) (pipelineSt e)).1
        (popStep e (preTrace e) (pipelineSt e)).2 := by
  rcases run_char e with ⟨h1, _⟩ | ⟨tr, st, k, h⟩ | h
  · exact absurd h1 hterm
  · rw [h, failOutcome_err] at herr
    exact absurd herr (by simp)
  · exact h

/-- No step segment of the pipeline contains the pop event. -/
theorem preTrace_no_pop (e : Env) : Event.popStash ∉ preTrace e := by
  unfold preTrace markerPrefix stashSeg checkoutSeg pullSeg submoduleSeg
  cases hm : e.markerValue <;> cases hd : e.isDirty <;> cases hb : e.checkoutBranch <;>
    cases ho : e.originExists <;> cases he : e.submodules.isEmpty <;>
    simp_all <;> (try split) <;> simp_all <;> (try split) <;> simp_all

/-- No step segment of the pipeline contains a status write. -/
theorem preTrace_no_write (e : Env) :
    (preTrace e).all (fun ev => !isWriteEvent ev) = true := by
  unfold preTrace markerPrefix stashSeg checkoutSeg pullSeg submoduleSeg
  cases hm : e.markerValue <;> cases hd : e.isDirty <;> cases hb : e.checkoutBranch <;>
    cases ho : e.originExists <;> cases he : e.submodules.isEmpty <;>
    simp_all [isWriteEvent] <;> (try split) <;> simp_all [isWriteEvent] <;>
    (try split) <;> simp_all [isWriteEvent]

/-- The branch-resolution events of the pipeline trace are exactly the
checkout segment. -/
theorem preTrace_filter_checkout (e : Env) :
    (preTrace e).filter isCheckoutEvent = checkoutSeg e := by
  unfold preTrace markerPrefix stashSeg pullSeg submoduleSeg
  cases hm : e.markerValue <;> cases hd : e.isDirty <;>
    cases ho : e.originExists <;> cases he : e.submodules.isEmpty <;>
    simp_all [isCheckoutEvent, List.filter_append] <;>
    unfold checkoutSeg <;> cases hb : e.checkoutBranch <;>
    simp_all [isCheckoutEvent] <;> (try split) <;> simp_all [isCheckoutEvent] <;>
    (try split) <;> simp_all [isCheckoutEvent]

theorem pop_mem_successOutcome (e : Env) (tr : List Event) (st : St) :
    Event.popStash ∈ (successOutcome e tr st).trace ↔ Event.popStash ∈ tr := by
  cases h : e.initiator <;> simp [successOutcome, h]

theorem write_mem_successOutcome (e : Env) (tr : List Event) (st : St) :
    Event.writeStatus (successRecord st) ∈ (successOutcome e tr st).trace := by
  cases h : e.initiator <;> simp [successOutcome, h]

/-- On a successful non-relocated run, the final `repo_changed` is exactly
what the pull step computed. -/
theorem run_success_repo_changed (e : Env)
    (hterm : (run e).term ≠ TermKind.execlCache)
    (herr : (run e).err = none) :
    (run e).st.repo_changed = pullChangedFlag e := by
  rw [run_success_eq e hterm herr, successOutcome_st, popStep_eq]
  cases hps : e.popSucceeds <;> cases hrc : pullChangedFlag e <;>
    cases hsf : stashedFlag e <;> simp [pipelineSt, hps, hrc, hsf]

/-- On a successful non-relocated run, the final `stashed` flag: cleared by
a successful pop, otherwise whatever the dirty-tree guard left. -/
theorem run_success_stashed (e : Env)
    (hterm : (run e).term ≠ TermKind.execlCache)
    (herr : (run e).err = none) :
    (run e).st.stashed =
      if (!pullChangedFlag e && stashedFlag e) && e.popSucceeds then false
      else stashedFlag e := by
  rw [run_success_eq e hterm herr, successOutcome_st, popStep_eq]
  cases hps : e.popSucceeds <;> cases hrc : pullChangedFlag e <;>
    cases hsf : stashedFlag e <;> simp [pipelineSt, hps, hrc, hsf]

/-- On a successful non-relocated run, the final submodule list is the one
the submodule step computed. -/
theorem run_success_updated (e : Env)
    (hterm : (run e).term ≠ TermKind.execlCache)
    (herr : (run e).err = none) :
    (run e).st.updated_submodules = submoduleUpdatedFrom e [] := by
  rw [run_success_eq e hterm herr, successOutcome_st, popStep_eq]
  cases hps : e.popSucceeds <;> cases hrc : pullChangedFlag e <;>
    cases hsf : stashedFlag e <;> simp [pipelineSt, hps, hrc, hsf]

/-- On a successful non-relocated run, the pop event occurs exactly when
the pull recorded no change and the dirty-tree guard left a stash. -/
theorem run_success_pop_mem (e : Env)
    (hterm : (run e).term ≠ TermKind.execlCache)
    (herr : (run e).err = none) :
    (Event.popStash ∈ (run e).trace) ↔
      (!pullChangedFlag e && stashedFlag e) = true := by
  rw [run_success_eq e hterm herr, pop_mem_successOutcome, popStep_eq]
  cases hrc : pullChangedFlag e <;> cases hsf : stashedFlag e <;>
    simp [pipelineSt, hrc, hsf, preTrace_no_pop e]

/-- C2: with an initiator configured, on every path that does not relocate
to the cache the run ends by writing the status record and then, as the
very last action, replacing the process image with the initiator — on the
success path and on the failure path alike, with nothing after the
replacement. -/
theorem C2_status_before_initiator_execl (e : Env) (p : String)
    (hi : e.initiator = some p)
    (hterm : (run e).term ≠ TermKind.execlCache) :
    ∃ A r, (run e).trace = A ++ [Event.writeStatus r, Event.execlInitiator p]
      ∧ (run e).term = TermKind.execlInitiator := by
  rcases run_char e with ⟨h1, _⟩ | ⟨tr, st, k, h⟩ | h
  · exact absurd h1 hterm
  · rw [h]
    exact ⟨tr, failureRecord, by simp [failOutcome, hi], by simp [failOutcome, hi]⟩
  · rw [h]
    exact ⟨(popStep e (preTrace e) (pipelineSt e)).1,
      successRecord (popStep e (preTrace e) (pipelineSt e)).2,
      by simp [successOutcome, hi], by simp [successOutcome, hi]⟩

/-- C6: on the relocated execution the marker is read and cleared as the
very first action (the trace begins with the clear event); the program's
own directory is verified to be `<marker>/<program-directory-name>`, and on
a mismatch the run fails with the cache-location-mismatch error without a
single git operation touching the target repository. -/
theorem C6_cache_marker_verification (e : Env) (v : List String)
    (hm : e.markerValue = some v) :
    (run e).trace.head? = some (Event.clearMarker v)
    ∧ (cacheLocationOk v e.scriptDir = false →
        (run e).err = some ErrKind.cacheLocationMismatch
        ∧ (run e).trace.all (fun ev => !touchesRepo ev) = true) := by
  have hrel : (e.cachePath.isSome && e.markerValue.isNone) = false := by simp [hm]
  constructor
  · cases hok : cacheLocationOk v e.scriptDir
    · cases hi : e.initiator <;>
        simp [run, hrel, hm, hok, failOutcome, hi]
    · have h0 : run e = mainFlow e [Event.clearMarker v] := by
        simp [run, hrel, hm, hok]
      rw [h0]
      rcases mainFlow_char e [Event.clearMarker v] with ⟨seg, st, k, h⟩ | h <;> rw [h]
      · obtain ⟨tail, htr, -, -⟩ := failOutcome_trace e _ st k
        rw [htr]
        simp
      · obtain ⟨tail, htr, -, -⟩ := successOutcome_trace e _ _
        rw [htr, popStep_eq]
        simp
  · intro hok
    refine ⟨?_, ?_⟩
    · have h0 : run e = failOutcome e [Event.clearMarker v] St.init .cacheLocationMismatch := by
        simp [run, hrel, hm, hok]
      rw [h0, failOutcome_err]
    · cases hi : e.initiator <;>
        simp [run, hrel, hm, hok, failOutcome, hi, touchesRepo]

/-- C8: when the target path does not exist, or exists without a `.git`
directory, the run fails with the invalid-repository error and no git
operation ever touches the target. -/
theorem C8_invalid_repository (e : Env)
    (hrel : (e.cachePath.isSome && e.markerValue.isNone) = false)
    (hmk : ∀ v, e.markerValue = some v → cacheLocationOk v e.scriptDir = true)
    (hbad : e.repoPathExists = false ∨ (e.repoPathExists = true ∧ e.gitDirExists = false)) :
    (run e).err = some ErrKind.invalidRepository
    ∧ (run e).trace.all (fun ev => !touchesRepo ev) = true := by
  rw [run_reaches_main e hrel hmk]
  have hmf : mainFlow e (markerPrefix e) =
      failOutcome e (markerPrefix e) St.init .invalidRepository := by
    rcases hbad with h | ⟨h1, h2⟩
    · simp [mainFlow, h]
    · simp [mainFlow, h1, h2]
  rw [hmf]
  refine ⟨failOutcome_err .., ?_⟩
  obtain ⟨tail, htr, hall, -⟩ := failOutcome_trace e (markerPrefix e) St.init .invalidRepository
  rw [htr]
  cases hm : e.markerValue <;>
    simp_all [markerPrefix, touchesRepo, List.all_append]

/-- C1, counterexample: on a successful run with no remote changes and an
outstanding stash, the pop is attempted, yet because the pop fails,
`stashed` is still true afterwards — refuting the claim that `stashed` is
false after every attempted pop. -/
theorem C1_counterexample :
    (run envC1).err = none
    ∧ Event.popStash ∈ (run envC1).trace
    ∧ (run envC1).st.stashed = true := by decide

/-- C1, amended: on every successful non-relocated run, the stash pop is
attempted if and only if the pull recorded no remote change and a stash is
outstanding; every attempted pop happens before the status record is
written; `stashed` is false afterward exactly when the pop succeeded (a
failed pop leaves it true); and when remote changes landed the stash is
left untouched. -/
theorem C1_stash_restore_amended (e : Env)
    (hterm : (run e).term ≠ TermKind.execlCache)
    (herr : (run e).err = none) :
    ((Event.popStash ∈ (run e).trace) ↔
      ((run e).st.repo_changed = false ∧ stashedFlag e = true))
    ∧ (∃ A r B, (run e).trace = A ++ Event.writeStatus r :: B
        ∧ Event.popStash ∉ B)
    ∧ (Event.popStash ∈ (run e).trace → (run e).st.stashed = !e.popSucceeds)
    ∧ ((run e).st.repo_changed = true →
        Event.popStash ∉ (run e).trace ∧ (run e).st.stashed = stashedFlag e) := by
  have hrc := run_success_repo_changed e hterm herr
  have hsh := run_success_stashed e hterm herr
  have hpm := run_success_pop_mem e hterm herr
  refine ⟨?_, ?_, ?_, ?_⟩
  · rw [hpm, hrc]
    cases hc : pullChangedFlag e <;> cases hs : stashedFlag e <;> simp
  · have h := run_success_eq e hterm herr
    rw [h]
    cases hi : e.initiator with
    | some p =>
      exact ⟨(popStep e (preTrace e) (pipelineSt e)).1,
        successRecord (popStep e (preTrace e) (pipelineSt e)).2,
        [Event.execlInitiator p], by simp [successOutcome, hi], by simp⟩
    | none =>
      exact ⟨(popStep e (preTrace e) (pipelineSt e)).1,
        successRecord (popStep e (preTrace e) (pipelineSt e)).2,
        [Event.chdirOriginal], by simp [successOutcome, hi], by simp⟩
  · intro hp
    rw [hpm] at hp
    rw [hsh]
    have h1 : pullChangedFlag e = false := by
      cases hc : pullChangedFlag e <;> simp [hc] at hp ⊢
    have h2 : stashedFlag e = true := by
      cases hs : stashedFlag e <;> simp [hs] at hp ⊢
    cases hps : e.popSucceeds <;> simp [h1, h2, hps]
  · intro hc1
    rw [hrc] at hc1
    constructor
    · rw [hpm]
      simp [hc1]
    · rw [hsh]
      simp [hc1]

/-- C3: with an `origin` remote and a pull returning fetch-infos carrying
the given flag values, a successful non-relocated run records no
repository change exactly when every flag value is 4 (`HEAD_UPTODATE`);
any other flag value makes `repo_changed` true. -/
theorem C3_pull_flag_classification (e : Env) (flags : List Nat)
    (hterm : (run e).term ≠ TermKind.execlCache)
    (herr : (run e).err = none)
    (ho : e.originExists = true)
    (hp : e.pullResult = some flags) :
    ((run e).st.repo_changed = false ↔ ∀ f ∈ flags, f = 4) := by
  rw [run_success_repo_changed e hterm herr]
  unfold pullChangedFlag
  rw [ho, hp]
  simp [List.any_eq_true]

/-- Membership in the submodule comparison result: a name is reported
exactly when it was already reported or some submodule of that name has a
missing post-update hash or a pre-update hash different from the
post-update one. -/
theorem submoduleCompare_cons_none (s : Submod) (rest : List Submod)
    (acc : List String) (ha : s.shaAfter = none) :
    submoduleCompare (s :: rest) acc =
      if s.name ∈ acc then submoduleCompare rest acc
      else submoduleCompare rest (acc ++ [s.name]) := by
  conv_lhs => unfold submoduleCompare
  rw [ha]

theorem submoduleCompare_cons_some (s : Submod) (rest : List Submod)
    (acc : List String) (cur : String) (ha : s.shaAfter = some cur) :
    submoduleCompare (s :: rest) acc =
      if s.shaBefore ≠ some cur then submoduleCompare rest (acc ++ [s.name])
      else submoduleCompare rest acc := by
  conv_lhs => unfold submoduleCompare
  rw [ha]

theorem mem_submoduleCompare (subs : List Submod) :
    ∀ (acc : List String) (name : String),
      name ∈ submoduleCompare subs acc ↔
        name ∈ acc ∨ ∃ s ∈ subs, s.name = name
          ∧ (s.shaAfter = none ∨ ¬ s.shaBefore = s.shaAfter) := by
  induction subs with
  | nil => intro acc name; simp [submoduleCompare]
  | cons s rest ih =>
    intro acc name
    cases ha : s.shaAfter with
    | none =>
      rw [submoduleCompare_cons_none s rest acc ha]
      by_cases hmem : s.name ∈ acc
      · rw [if_pos hmem, ih]
        aesop
      · rw [if_neg hmem, ih]
        aesop
    | some cur =>
      rw [submoduleCompare_cons_some s rest acc cur ha]
      by_cases hbd : s.shaBefore = some cur
      · rw [if_neg (not_not_intro hbd), ih]
        aesop
      · rw [if_pos hbd, ih]
        aesop

/-- C5: the reported submodule set is exactly the submodules whose
checked-out hash differs between the two reads, plus those whose hash
could not be read before or after the update; with two submodules of which
only one differs, exactly that one is listed; absence of submodules is not
an error; and on a successful run the status record carries exactly the
list the comparison computed. -/
theorem C5_submodule_update_reporting :
    (∀ (subs : List Submod) (acc : List String) (name : String),
      name ∈ submoduleCompare subs acc ↔
        name ∈ acc ∨ ∃ s ∈ subs, s.name = name
          ∧ ((∃ b a, s.shaBefore = some b ∧ s.shaAfter = some a ∧ b ≠ a)
              ∨ s.shaBefore = none ∨ s.shaAfter = none))
    ∧ (∀ (e : Env) (tr : List Event) (st : St), e.submodules = [] →
        submoduleStep e tr st = .ok tr st)
    ∧ submoduleCompare
        [⟨"sub1", some "aaa", some "aaa"⟩, ⟨"sub2", some "bbb", some "ccc"⟩] [] = ["sub2"]
    ∧ (∀ e : Env, (run e).term ≠ TermKind.execlCache → (run e).err = none →
        (run e).st.updated_submodules = submoduleUpdatedFrom e []
        ∧ Event.writeStatus (successRecord (run e).st) ∈ (run e).trace) := by
  refine ⟨?_, ?_, by decide, ?_⟩
  · intro subs acc name
    rw [mem_submoduleCompare]
    constructor
    · rintro (h | ⟨s, hs, hn, hcond⟩)
      · exact Or.inl h
      · refine Or.inr ⟨s, hs, hn, ?_⟩
        rcases hcond with h1 | h2
        · exact Or.inr (Or.inr h1)
        · cases hb : s.shaBefore with
          | none => exact Or.inr (Or.inl rfl)
          | some bv =>
            cases ha : s.shaAfter with
            | none => exact Or.inr (Or.inr rfl)
            | some av =>
              refine Or.inl ⟨bv, av, rfl, rfl, ?_⟩
              intro hba
              exact h2 (by rw [hb, ha, hba])
    · rintro (h | ⟨s, hs, hn, hcond⟩)
      · exact Or.inl h
      · refine Or.inr ⟨s, hs, hn, ?_⟩
        rcases hcond with ⟨b, a, hb, ha, hba⟩ | hb | ha
        · exact Or.inr (by rw [hb, ha]; simp [hba])
        · cases ha : s.shaAfter with
          | none => exact Or.inl rfl
          | some av => exact Or.inr (by simp [hb, ha])
        · exact Or.inl ha
  · intro e tr st h
    unfold submoduleStep
    simp [h]
  · intro e hterm herr
    refine ⟨run_success_updated e hterm herr, ?_⟩
    have h := run_success_eq e hterm herr
    have hst : (run e).st = (popStep e (preTrace e) (pipelineSt e)).2 := by
      rw [h, successOutcome_st]
    rw [hst, h]
    exact write_mem_successOutcome e _ _

/-- C7: with no `origin` remote, a clean tree and no branch request, the
run skips the pull (no pull operation in the trace), still performs the
submodule update step, and writes a SUCCESS record with
`Repository Changed: No`. -/
theorem C7_no_origin_skip (e : Env)
    (hrel : (e.cachePath.isSome && e.markerValue.isNone) = false)
    (hmk : ∀ v, e.markerValue = some v → cacheLocationOk v e.scriptDir = true)
    (hrp : e.repoPathExists = true) (hgd : e.gitDirExists = true)
    (ho : e.originExists = false) (hd : e.isDirty = false)
    (hb : e.checkoutBranch = none) (hsm : e.submoduleCmdOk = true) :
    (run e).err = none
    ∧ Event.pullOp ∉ (run e).trace
    ∧ (e.submodules ≠ [] → Event.submoduleUpdate ∈ (run e).trace)
    ∧ Event.writeStatus { success := true, repoChangedField := some "No", submoduleUpdatesField := some (submoduleUpdatedFrom e []) } ∈ (run e).trace := by
  have hck : checkoutOkFor e := by simp [checkoutOkFor, hb]
  have h := run_success_of e hrel hmk hrp hgd hck (by simp [ho]) hsm
  have hpipe : pipelineSt e = ⟨false, false, submoduleUpdatedFrom e []⟩ := by
    simp [pipelineSt, pullChangedFlag, stashedFlag, ho, hd]
  have hP1 : (popStep e (preTrace e) (pipelineSt e)).1 = preTrace e := by
    rw [hpipe, popStep_eq]
    simp
  have hP2 : (popStep e (preTrace e) (pipelineSt e)).2 =
      ⟨false, false, submoduleUpdatedFrom e []⟩ := by
    rw [hpipe, popStep_eq]
    simp
  rw [h, hP1, hP2]
  refine ⟨successOutcome_err .., ?_, ?_, ?_⟩
  · have hnp : Event.pullOp ∉ preTrace e := by
      unfold preTrace markerPrefix stashSeg checkoutSeg pullSeg submoduleSeg
      cases hm : e.markerValue <;> cases hse : e.submodules.isEmpty <;>
        simp [hm, hse, hd, hb, ho]
    cases hi : e.initiator <;> simp [successOutcome, hi, hnp]
  · intro hne
    have hse : e.submodules.isEmpty = false := by
      cases hq : e.submodules
      · exact absurd hq hne
      · simp [hq]
    cases hi : e.initiator <;>
      simp [successOutcome, hi, preTrace, submoduleSeg, hse]
  · have := write_mem_successOutcome e (preTrace e) ⟨false, false, submoduleUpdatedFrom e []⟩
    simpa [successRecord] using this

/-- C9: `repo_changed` starts false and only the pull step sets it: every
other step of the pipeline preserves it; consequently a run that pulled
nothing while submodules changed writes a SUCCESS record with
`Repository Changed: No` that still lists the updated submodules. -/
theorem C9_repo_changed_only_pull :
    St.init.repo_changed = false
    ∧ (∀ (e : Env) (tr : List Event) (st : St),
        (stashStep e tr st).2.repo_changed = st.repo_changed)
    ∧ (∀ (e : Env) (tr : List Event) (st : St),
        ((checkoutStep e tr st).state).repo_changed = st.repo_changed)
    ∧ (∀ (e : Env) (tr : List Event) (st : St),
        ((submoduleStep e tr st).state).repo_changed = st.repo_changed)
    ∧ (∀ (e : Env) (tr : List Event) (st : St),
        (popStep e tr st).2.repo_changed = st.repo_changed)
    ∧ (∀ (e : Env) (flags : List Nat),
        (e.cachePath.isSome && e.markerValue.isNone) = false →
        (∀ v, e.markerValue = some v → cacheLocationOk v e.scriptDir = true) →
        e.repoPathExists = true → e.gitDirExists = true →
        e.isDirty = false → e.checkoutBranch = none →
        e.originExists = true → e.pullResult = some flags →
        flags.all (fun f => f == 4) = true → e.submoduleCmdOk = true →
        (run e).err = none
        ∧ (run e).st.repo_changed = false
        ∧ Event.writeStatus { success := true, repoChangedField := some "No", submoduleUpdatesField := some (submoduleUpdatedFrom e []) } ∈ (run e).trace) := by
  refine ⟨rfl, ?_, ?_, ?_, ?_, ?_⟩
  · intro e tr st
    rw [stashStep_eq]
  · intro e tr st
    rcases checkoutStep_char e tr st with ⟨seg, h⟩ | h <;> rw [h] <;> rfl
  · intro e tr st
    rcases submoduleStep_char e tr st with ⟨seg, h⟩ | h <;> rw [h] <;> rfl
  · intro e tr st
    rw [popStep_eq]
    cases hrc : st.repo_changed <;> cases hsh : st.stashed <;>
      cases hps : e.popSucceeds <;> simp [hrc, hsh, hps]
  · intro e flags hrel hmk hrp hgd hd hb ho hp hall hsm
    have hck : checkoutOkFor e := by simp [checkoutOkFor, hb]
    have h := run_success_of e hrel hmk hrp hgd hck (by simp [hp]) hsm
    have hflag : pullChangedFlag e = false := by
      simp only [pullChangedFlag, ho, hp, Option.getD_some, Bool.true_and]
      simp only [List.all_eq_true] at hall
      simp only [List.any_eq_false]
      intro f hf
      simpa using hall f hf
    have hpipe : pipelineSt e = ⟨false, false, submoduleUpdatedFrom e []⟩ := by
      simp [pipelineSt, hflag, stashedFlag, hd]
    have hP1 : (popStep e (preTrace e) (pipelineSt e)).1 = preTrace e := by
      rw [hpipe, popStep_eq]
      simp
    have hP2 : (popStep e (preTrace e) (pipelineSt e)).2 =
        ⟨false, false, submoduleUpdatedFrom e []⟩ := by
      rw [hpipe, popStep_eq]
      simp
    rw [h, hP1, hP2]
    refine ⟨successOutcome_err .., by rw [successOutcome_st], ?_⟩
    have := write_mem_successOutcome e (preTrace e) ⟨false, false, submoduleUpdatedFrom e []⟩
    simpa [successRecord] using this

/-- C10: whenever `stashed` is still true at status-write time on the
success path, the record reports `Yes (with stashes)` regardless of
`repo_changed`; in particular a run that pulled nothing but whose stash
pop failed reports `Yes (with stashes)` even though the repository did not
change. -/
theorem C10_stashed_forces_yes_with_stashes :
    (∀ st : St, st.stashed = true →
      (successRecord st).repoChangedField = some "Yes (with stashes)")
    ∧ (∀ e : Env, (run e).term ≠ TermKind.execlCache → (run e).err = none →
        (run e).st.stashed = true →
        Event.writeStatus (successRecord (run e).st) ∈ (run e).trace
        ∧ (successRecord (run e).st).repoChangedField = some "Yes (with stashes)")
    ∧ (∀ (e : Env) (flags : List Nat),
        (e.cachePath.isSome && e.markerValue.isNone) = false →
        (∀ v, e.markerValue = some v → cacheLocationOk v e.scriptDir = true) →
        e.repoPathExists = true → e.gitDirExists = true →
        e.isDirty = true → e.stashSucceeds = true → e.popSucceeds = false →
        e.checkoutBranch = none →
        e.originExists = true → e.pullResult = some flags →
        flags.all (fun f => f == 4) = true → e.submoduleCmdOk = true →
        (run e).err = none
        ∧ (run e).st.repo_changed = false
        ∧ Event.popStash ∈ (run e).trace
        ∧ Event.writeStatus { success := true, repoChangedField := some "Yes (with stashes)", submoduleUpdatesField := some (submoduleUpdatedFrom e []) } ∈ (run e).trace) := by
  refine ⟨?_, ?_, ?_⟩
  · intro st hs
    cases st
    simp_all [successRecord]
  · intro e hterm herr hs
    refine ⟨?_, ?_⟩
    · have h := run_success_eq e hterm herr
      have hst : (run e).st = (popStep e (preTrace e) (pipelineSt e)).2 := by
        rw [h, successOutcome_st]
      rw [hst, h]
      exact write_mem_successOutcome e _ _
    · cases hq : (run e).st
      rw [hq] at hs
      simp_all [successRecord]
  · intro e flags hrel hmk hrp hgd hd hss hps hb ho hp hall hsm
    have hck : checkoutOkFor e := by simp [checkoutOkFor, hb]
    have h := run_success_of e hrel hmk hrp hgd hck (by simp [hp]) hsm
    have hflag : pullChangedFlag e = false := by
      simp only [pullChangedFlag, ho, hp, Option.getD_some, Bool.true_and]
      simp only [List.all_eq_true] at hall
      simp only [List.any_eq_false]
      intro f hf
      simpa using hall f hf
    have hpipe : pipelineSt e = ⟨false, true, submoduleUpdatedFrom e []⟩ := by
      simp [pipelineSt, hflag, stashedFlag, hd, hss]
    have hP1 : (popStep e (preTrace e) (pipelineSt e)).1 =
        preTrace e ++ [Event.popStash] := by
      rw [hpipe, popStep_eq]
      simp
    have hP2 : (popStep e (preTrace e) (pipelineSt e)).2 =
        ⟨false, true, submoduleUpdatedFrom e []⟩ := by
      rw [hpipe, popStep_eq]
      simp [hps]
    rw [h, hP1, hP2]
    refine ⟨successOutcome_err .., by rw [successOutcome_st], ?_, ?_⟩
    · cases hi : e.initiator <;> simp [successOutcome, hi]
    · have := write_mem_successOutcome e (preTrace e ++ [Event.popStash])
        ⟨false, true, submoduleUpdatedFrom e []⟩
      simpa [successRecord] using this

/-- A failing selected checkout command makes `_checkout_branch` raise. -/
theorem checkoutStep_err (e : Env) (tr : List Event) (st : St) (b : String)
    (hb : e.checkoutBranch = some b)
    (hfail :
      (b ∈ e.localBranches ∧ e.checkoutLocalOk = false)
      ∨ (b ∉ e.localBranches
          ∧ (e.fetchOk = true ∧ "origin/" ++ b ∈ e.remoteRefs)
          ∧ e.checkoutTrackOk = false)
      ∨ (b ∉ e.localBranches
          ∧ ¬(e.fetchOk = true ∧ "origin/" ++ b ∈ e.remoteRefs)
          ∧ e.checkoutNewOk = false)) :
    ∃ seg, checkoutStep e tr st = .err (tr ++ seg) st .branchResolutionFailure := by
  rcases hfail with ⟨h1, h2⟩ | ⟨h1, h2, h3⟩ | ⟨h1, h2, h3⟩
  · refine ⟨[Event.checkoutLocal], ?_⟩
    simp [checkoutStep, hb, h1, h2]
  · refine ⟨[Event.fetch, Event.checkoutTrack], ?_⟩
    simp [checkoutStep, hb, h1, h2.1, h2.2, h3]
  · refine ⟨[Event.fetch, Event.checkoutNew], ?_⟩
    simp [checkoutStep, hb, h1, h2, h3]

/-- C4, counterexample: a requested branch that exists neither locally nor
remotely, probed through a FAILING fetch, does not abort the run: the
fetch failure is caught, a fresh branch is created and the run succeeds —
refuting "any git-level failure during this sequence (including the
fetch) is fatal". -/
theorem C4_counterexample :
    envC4.checkoutBranch = some "dev" ∧ envC4.fetchOk = false
    ∧ (run envC4).err = none ∧ (run envC4).term = TermKind.normal
    ∧ Event.fetch ∈ (run envC4).trace ∧ Event.checkoutNew ∈ (run envC4).trace := by
  decide

/-- C4, amended: branch resolution follows the priority order (existing
local branch; else fetch and, if `origin/<branch>` is listed, a tracking
branch; else a fresh branch from HEAD); a failure of the selected checkout
command is fatal and records failure, but a failed FETCH is caught with a
warning, treated as the remote branch being absent, and the run proceeds
to create a fresh branch. -/
theorem C4_branch_resolution_amended :
    (∀ (e : Env) (b : String),
      (e.cachePath.isSome && e.markerValue.isNone) = false →
      (∀ v, e.markerValue = some v → cacheLocationOk v e.scriptDir = true) →
      e.repoPathExists = true → e.gitDirExists = true →
      e.checkoutBranch = some b →
      ((b ∈ e.localBranches ∧ e.checkoutLocalOk = false)
        ∨ (b ∉ e.localBranches
            ∧ (e.fetchOk = true ∧ "origin/" ++ b ∈ e.remoteRefs)
            ∧ e.checkoutTrackOk = false)
        ∨ (b ∉ e.localBranches
            ∧ ¬(e.fetchOk = true ∧ "origin/" ++ b ∈ e.remoteRefs)
            ∧ e.checkoutNewOk = false)) →
      (run e).err = some ErrKind.branchResolutionFailure
      ∧ Event.writeStatus failureRecord ∈ (run e).trace)
    ∧ (∀ e : Env, (run e).term ≠ TermKind.execlCache → (run e).err = none →
        (run e).trace.filter isCheckoutEvent = checkoutSeg e)
    ∧ (∀ (e : Env) (b : String),
        (e.cachePath.isSome && e.markerValue.isNone) = false →
        (∀ v, e.markerValue = some v → cacheLocationOk v e.scriptDir = true) →
        e.repoPathExists = true → e.gitDirExists = true →
        e.checkoutBranch = some b → b ∉ e.localBranches → e.fetchOk = false →
        e.checkoutNewOk = true → (e.originExists = true → e.pullResult.isSome) →
        e.submoduleCmdOk = true →
        (run e).err = none ∧ Event.fetch ∈ (run e).trace
        ∧ Event.checkoutNew ∈ (run e).trace) := by
  refine ⟨?_, ?_, ?_⟩
  · intro e b hrel hmk hrp hgd hb hfail
    rw [run_reaches_main e hrel hmk]
    obtain ⟨seg, hck⟩ := checkoutStep_err e (markerPrefix e ++ stashSeg e)
      { St.init with stashed := St.init.stashed || stashedFlag e } b hb hfail
    unfold mainFlow
    simp only [hrp, hgd, Bool.not_true, Bool.false_eq_true, if_false, stashStep_eq, hck]
    refine ⟨failOutcome_err .., ?_⟩
    obtain ⟨tail, htr, -, hw⟩ := failOutcome_trace e (markerPrefix e ++ stashSeg e ++ seg)
      { St.init with stashed := St.init.stashed || stashedFlag e } .branchResolutionFailure
    rw [htr]
    simp [hw]
  · intro e hterm herr
    have h := run_success_eq e hterm herr
    rw [h, popStep_eq]
    cases hc : !(pipelineSt e).repo_changed && (pipelineSt e).stashed <;>
      cases hi : e.initiator <;>
      simp [successOutcome, hi, List.filter_append, preTrace_filter_checkout,
        isCheckoutEvent]
  · intro e b hrel hmk hrp hgd hb hbl hf hn hpl hsm
    have hck : checkoutOkFor e := by simp [checkoutOkFor, hb, hbl, hf, hn]
    have h := run_success_of e hrel hmk hrp hgd hck hpl hsm
    have hcs : checkoutSeg e = [Event.fetch, Event.checkoutNew] := by
      simp [checkoutSeg, hb, hbl, hf]
    refine ⟨by rw [h, successOutcome_err], ?_, ?_⟩ <;>
      rw [h, popStep_eq] <;>
      cases hi : e.initiator <;>
      simp [successOutcome, hi, preTrace, hcs]

/-! ### Witnesses -/

/-- C1 witness: the amended stash-restore property instantiated at a
concrete successful run with a dirty tree and a succeeding pop. -/
theorem C1_witness :
    ((Event.popStash ∈ (run envC1w).trace) ↔
      ((run envC1w).st.repo_changed = false ∧ stashedFlag envC1w = true))
    ∧ (∃ A r B, (run envC1w).trace = A ++ Event.writeStatus r :: B
        ∧ Event.popStash ∉ B)
    ∧ (Event.popStash ∈ (run envC1w).trace →
        (run envC1w).st.stashed = !envC1w.popSucceeds)
    ∧ ((run envC1w).st.repo_changed = true →
        Event.popStash ∉ (run envC1w).trace
        ∧ (run envC1w).st.stashed = stashedFlag envC1w) :=
  C1_stash_restore_amended envC1w (by decide) (by decide)

/-- C2 witness: the hand-off ordering instantiated at a concrete run with
an initiator. -/
theorem C2_witness :
    ∃ A r, (run envC2).trace = A ++ [Event.writeStatus r, Event.execlInitiator "caller.py"]
      ∧ (run envC2).term = TermKind.execlInitiator :=
  C2_status_before_initiator_execl envC2 "caller.py" rfl (by decide)

/-- C3 witness: the flag classification instantiated at a pull returning
flags 4 and 64. -/
theorem C3_witness :
    ((run envC3).st.repo_changed = false ↔ ∀ f ∈ ([4, 64] : List Nat), f = 4) :=
  C3_pull_flag_classification envC3 [4, 64] (by decide) (by decide) rfl rfl

/-- C4 witness: a failing local checkout is fatal, and a failing fetch is
not. -/
theorem C4_witness :
    ((run envC4a).err = some ErrKind.branchResolutionFailure
      ∧ Event.writeStatus failureRecord ∈ (run envC4a).trace)
    ∧ ((run envC4).err = none ∧ Event.fetch ∈ (run envC4).trace
        ∧ Event.checkoutNew ∈ (run envC4).trace) :=
  ⟨C4_branch_resolution_amended.1 envC4a "main" rfl (fun _ hv => Option.noConfusion hv)
      rfl rfl rfl (Or.inl ⟨by decide, rfl⟩),
   C4_branch_resolution_amended.2.2 envC4 "dev" rfl (fun _ hv => Option.noConfusion hv)
      rfl rfl rfl (by decide) rfl rfl (by decide) rfl⟩

/-- C5 witness: the reporting condition at the two-submodule environment,
the no-submodule case, and the record contents of a concrete run. -/
theorem C5_witness :
    (("sub2" ∈ submoduleCompare envC5.submodules []) ↔
      ("sub2" : String) ∈ ([] : List String)
      ∨ ∃ s ∈ envC5.submodules, s.name = "sub2"
        ∧ ((∃ b a, s.shaBefore = some b ∧ s.shaAfter = some a ∧ b ≠ a)
            ∨ s.shaBefore = none ∨ s.shaAfter = none))
    ∧ (submoduleStep baseEnv [] St.init = .ok [] St.init)
    ∧ ((run envC5).st.updated_submodules = submoduleUpdatedFrom envC5 []
        ∧ Event.writeStatus (successRecord (run envC5).st) ∈ (run envC5).trace) :=
  ⟨C5_submodule_update_reporting.1 envC5.submodules [] "sub2",
   C5_submodule_update_reporting.2.1 baseEnv [] St.init rfl,
   C5_submodule_update_reporting.2.2.2 envC5 (by decide) (by decide)⟩

/-- C6 witness: a concrete mismatched marker aborts with the mismatch
error before touching the repository. -/
theorem C6_witness :
    (run envC6).trace.head? = some (Event.clearMarker ["cdir"])
    ∧ (run envC6).err = some ErrKind.cacheLocationMismatch
    ∧ (run envC6).trace.all (fun ev => !touchesRepo ev) = true := by
  have h := C6_cache_marker_verification envC6 ["cdir"] rfl
  exact ⟨h.1, (h.2 (by decide)).1, (h.2 (by decide)).2⟩

/-- C7 witness: a concrete run without `origin` skips the pull, updates
the submodule, and reports `Repository Changed: No`. -/
theorem C7_witness :
    (run envC7).err = none
    ∧ Event.pullOp ∉ (run envC7).trace
    ∧ (envC7.submodules ≠ [] → Event.submoduleUpdate ∈ (run envC7).trace)
    ∧ Event.writeStatus { success := true, repoChangedField := some "No", submoduleUpdatesField := some (submoduleUpdatedFrom envC7 []) } ∈ (run envC7).trace :=
  C7_no_origin_skip envC7 rfl (fun _ hv => Option.noConfusion hv) rfl rfl rfl rfl rfl rfl

/-- C8 witness: a concrete missing path fails with the invalid-repository
error without touching the target. -/
theorem C8_witness :
    (run envC8).err = some ErrKind.invalidRepository
    ∧ (run envC8).trace.all (fun ev => !touchesRepo ev) = true :=
  C8_invalid_repository envC8 rfl (fun _ hv => Option.noConfusion hv) (Or.inl rfl)

/-- C9 witness: a concrete run with an up-to-date pull and one changed
submodule reports `Repository Changed: No` while listing it. -/
theorem C9_witness :
    (run envC9).err = none
    ∧ (run envC9).st.repo_changed = false
    ∧ Event.writeStatus { success := true, repoChangedField := some "No", submoduleUpdatesField := some (submoduleUpdatedFrom envC9 []) } ∈ (run envC9).trace :=
  C9_repo_changed_only_pull.2.2.2.2.2 envC9 [4] rfl (fun _ hv => Option.noConfusion hv)
    rfl rfl rfl rfl rfl rfl (by decide) rfl

/-- C10 witness: a stashed state forces `Yes (with stashes)`, and a
concrete run with a failed pop reports it while `repo_changed` is
false. -/
theorem C10_witness :
    (successRecord ⟨true, true, []⟩).repoChangedField = some "Yes (with stashes)"
    ∧ ((run envC10).err = none
        ∧ (run envC10).st.repo_changed = false
        ∧ Event.popStash ∈ (run envC10).trace
        ∧ Event.writeStatus { success := true, repoChangedField := some "Yes (with stashes)", submoduleUpdatesField := some (submoduleUpdatedFrom envC10 []) } ∈ (run envC10).trace) :=
  ⟨C10_stashed_forces_yes_with_stashes.1 ⟨true, true, []⟩ rfl,
   C10_stashed_forces_yes_with_stashes.2.2 envC10 [4] rfl (fun _ hv => Option.noConfusion hv)
      rfl rfl rfl rfl rfl rfl rfl rfl (by decide) rfl⟩

end GitPullIndep
